import Mathlib

/-!
Shallow embedding of the moving-average-crossover grid-search system
(`worker.py` and `push_jobs.py`) and proofs of its specification claims.

Prices are modelled as exact rationals; a price series is the ordered list
of its close values.  A pandas dataframe column is modelled as a list
aligned with the close list; a cell that pandas would hold as `NaN`
(a rolling mean before its window is full) is modelled as `none`, and
`dropna` filters those rows out.  Queue and blob storage are modelled as
explicit state threaded through the worker-loop step function.
-/

/-- The result record returned by `run_backtest` (`worker.py`). -/
structure BacktestResult where
  total_return : ℚ
  num_trades : ℕ
  win_rate : ℚ
deriving DecidableEq, Repr

/-- The neutral record `{total_return: 0, num_trades: 0, win_rate: 0}`. -/
def neutralResult : BacktestResult :=
  { total_return := 0, num_trades := 0, win_rate := 0 }

/-- `TRADING_FEE = 0.001` (`worker.py`, module constant). -/
def TRADING_FEE : ℚ := 1 / 1000

/-- One cell of a rolling-mean column: at row `i`, the mean of the last `w`
closes once `w` closes exist, else the `NaN` that `dropna` will remove. -/
def rmCell (closes : List ℚ) (w : ℕ) (i : ℕ) : Option ℚ :=
  if 0 < w ∧ w ≤ i + 1 then some ((((closes.take (i+1)).drop (i+1-w)).sum) / w)
  else none

/-- `df['close'].rolling(window=w).mean()`: the column of trailing simple
moving averages, `none` where pandas holds `NaN` (fewer than `w` closes so
far).  Cell `i` averages `closes[i+1-w .. i]`. -/
def rolling_mean (closes : List ℚ) (w : ℕ) : List (Option ℚ) :=
  (List.range closes.length).map (rmCell closes w)

/-- `df.dropna()`: keep the rows where both rolling-mean cells are present.
A row is `(close, fast cell, slow cell)`. -/
def dropna (rows : List (ℚ × Option ℚ × Option ℚ)) : List (ℚ × ℚ × ℚ) :=
  rows.filterMap (fun r =>
    match r with
    | (c, some f, some s) => some (c, f, s)
    | _ => none)

/-- The `signal` column of `run_backtest`: default `0`, then `1` where
`fast > slow` and `-1` where `fast < slow`. -/
def signalOf (f s : ℚ) : Int :=
  if f > s then 1 else if f < s then -1 else 0

/-- One iteration of the `for i, row in df.iterrows()` loop of
`run_backtest`, acting on the `(position, entry_price, trades)` state.
The row is `(close, signal)`. -/
def tradeFold (st : Int × ℚ × List ℚ) (row : ℚ × Int) : Int × ℚ × List ℚ :=
  if row.2 = 1 ∧ st.1 = 0 then
    (1, row.1 * (1 + TRADING_FEE), st.2.2)
  else if row.2 = -1 ∧ st.1 = 1 then
    (0, st.2.1, st.2.2 ++ [(row.1 * (1 - TRADING_FEE) - st.2.1) / st.2.1])
  else st

/-- The dataframe of `run_backtest` after `dropna`: close, fast and slow
rolling means, rows zipped from the columns. -/
def backtestDf (closes : List ℚ) (fast_ma slow_ma : ℕ) : List (ℚ × ℚ × ℚ) :=
  dropna (closes.zip ((rolling_mean closes fast_ma).zip (rolling_mean closes slow_ma)))

/-- The surviving rows of `run_backtest` paired with their `signal` value. -/
def signalRows (closes : List ℚ) (fast_ma slow_ma : ℕ) : List (ℚ × Int) :=
  (backtestDf closes fast_ma slow_ma).map (fun r => (r.1, signalOf r.2.1 r.2.2))

/-- The realized-trade list of `run_backtest`: the `trades` component of the
fold over the surviving rows, starting `position = 0`, `entry_price = 0`,
`trades = []`. -/
def tradesOf (closes : List ℚ) (fast_ma slow_ma : ℕ) : List ℚ :=
  ((signalRows closes fast_ma slow_ma).foldl tradeFold (0, 0, [])).2.2

/-- The aggregation step of `run_backtest` as a function of the trade list:
the neutral record on zero trades, else
`total_return = prod(1+t) - 1`, `num_trades = len(trades)`,
`win_rate = count(t > 0) / len(trades)`. -/
def resultOfTrades (trades : List ℚ) : BacktestResult :=
  if trades.length = 0 then neutralResult
  else
    { total_return := (trades.map (fun t => 1 + t)).prod - 1,
      num_trades := trades.length,
      win_rate := (((trades.filter (fun t => 0 < t)).length : ℚ) / (trades.length : ℚ)) }

/-- `run_backtest` (`worker.py` lines 44-95): rolling means, `dropna`,
signals, the position fold, and the aggregates; the neutral record when no
row survives windowing or no trade is realized. -/
def run_backtest (closes : List ℚ) (fast_ma slow_ma : ℕ) : BacktestResult :=
  let df := backtestDf closes fast_ma slow_ma
  if df.length = 0 then neutralResult
  else
    let trades := tradesOf closes fast_ma slow_ma
    if trades.length = 0 then neutralResult
    else
      { total_return := (trades.map (fun t => 1 + t)).prod - 1,
        num_trades := trades.length,
        win_rate := (((trades.filter (fun t => 0 < t)).length : ℚ) / (trades.length : ℚ)) }

/-- A backtest job `{coin, fast_ma, slow_ma}` (`push_jobs.py`). -/
structure Job where
  coin : String
  fast_ma : ℕ
  slow_ma : ℕ
deriving DecidableEq, Repr

/-- `FAST_RANGE = list(range(5, 101, 5))` (`push_jobs.py`). -/
def FAST_RANGE : List ℕ := List.range' 5 20 5

/-- `SLOW_RANGE = list(range(20, 301, 10))` (`push_jobs.py`). -/
def SLOW_RANGE : List ℕ := List.range' 20 29 10

/-- `generate_jobs` (`push_jobs.py` lines 46-59), with the two module-level
ranges as explicit arguments: for each coin, for each `(fast, slow)` in
`itertools.product(fastRange, slowRange)`, keep the pair when
`fast < slow`. -/
def generate_jobs (coins : List String) (fastRange slowRange : List ℕ) : List Job :=
  coins.flatMap (fun coin =>
    ((fastRange.flatMap (fun f => slowRange.map (fun s => (f, s)))).filter
        (fun p => p.1 < p.2)).map
      (fun p => { coin := coin, fast_ma := p.1, slow_ma := p.2 }))

/-- `push_jobs_to_queue` (`push_jobs.py` lines 62-77).  `sendOk j` tells
whether `queue_client.send_message` succeeds for `j`; an exception is not
caught, so the loop stops at the first failing send.  Returns the messages
that reached the queue and whether the loop ran to completion. -/
def push_jobs_to_queue (sendOk : Job → Bool) : List Job → List Job × Bool
  | [] => ([], true)
  | j :: rest =>
    if sendOk j then
      let r := push_jobs_to_queue sendOk rest
      (j :: r.1, r.2)
    else ([], false)

/-- The artifact `save_result` uploads: the backtest record together with
the originating parameters (`process_job` adds them before saving). -/
structure StoredResult where
  coin : String
  fast_ma : ℕ
  slow_ma : ℕ
  res : BacktestResult
deriving DecidableEq, Repr

/-- The blob name `f"{coin}_{fast_ma}_{slow_ma}.json"` used by
`save_result`. -/
def blobName (coin : String) (fast_ma slow_ma : ℕ) : String :=
  coin ++ "_" ++ toString fast_ma ++ "_" ++ toString slow_ma ++ ".json"

/-- The results container, a map from blob name to stored artifact. -/
def BlobStore : Type := String → Option StoredResult

/-- `save_result` (`worker.py` lines 98-105): upload the artifact under its
key-derived blob name with `overwrite=True`. -/
def save_result (store : BlobStore) (r : StoredResult) : BlobStore :=
  fun name =>
    if name = blobName r.coin r.fast_ma r.slow_ma then some r else store name

/-- The external collaborators of one worker: the data container (price
series per coin, `none` when the blob is missing) and whether the upload of
a given result blob succeeds. -/
structure WorkerEnv where
  data : String → Option (List ℚ)
  persistOk : String → Bool

/-- `process_job` (`worker.py` lines 108-127): load the coin's prices, run
the backtest, attach the job parameters; `none` when the data load raises. -/
def process_job (env : WorkerEnv) (job : Job) : Option StoredResult :=
  match env.data job.coin with
  | none => none
  | some prices =>
    some { coin := job.coin, fast_ma := job.fast_ma, slow_ma := job.slow_ma,
           res := run_backtest prices job.fast_ma job.slow_ma }

/-- The `try` block of `worker_loop` for one received message: decode the
payload (a malformed payload is modelled as `none`), process the job, save
the result.  `none` when any of the three steps raises, `some` the updated
results store when all succeed. -/
def handleMessage (env : WorkerEnv) (store : BlobStore) (msg : Option Job) :
    Option BlobStore :=
  match msg with
  | none => none
  | some job =>
    match process_job env job with
    | none => none
    | some r =>
      if env.persistOk (blobName r.coin r.fast_ma r.slow_ma) then
        some (save_result store r)
      else none

/-- The observable state of one worker and its queue: the messages still
visible to it (in receive order), the messages it failed on and left
un-deleted (invisible until their lease expires, eligible for redelivery),
the results store, the processed count, the terminated flag, and how many
times the queue has been polled. -/
structure WorkerState where
  visible : List (Option Job)
  abandoned : List (Option Job)
  store : BlobStore
  processed : ℕ
  terminated : Bool
  polls : ℕ

/-- One iteration of the `while True` loop of `worker_loop` (`worker.py`
lines 142-174): poll for one message; break when none; otherwise handle it,
deleting it on success and leaving it un-deleted (abandoned) on failure.
After the loop has broken the worker does nothing more. -/
def worker_step (env : WorkerEnv) (s : WorkerState) : WorkerState :=
  if s.terminated then s
  else
    match s.visible with
    | [] => { s with terminated := true, polls := s.polls + 1 }
    | msg :: rest =>
      match handleMessage env s.store msg with
      | some store' =>
        { s with visible := rest, store := store',
                 processed := s.processed + 1, polls := s.polls + 1 }
      | none =>
        { s with visible := rest, abandoned := s.abandoned ++ [msg],
                 polls := s.polls + 1 }

/-- The position state of the reference algorithm: `{flat, long}`. -/
inductive PositionState where
  | flat
  | long
deriving DecidableEq, Repr

/-- A period's signal in the reference algorithm. -/
inductive SignalKind where
  | longSig
  | shortSig
  | flatSig
deriving DecidableEq, Repr

/-- Reference algorithm, step 1: the trailing simple moving average with
window `w` is defined at a period only once `w` closes (the current one
included) exist; it averages the last `w` closes. -/
def specAvg (closes : List ℚ) (w : ℕ) (i : ℕ) : Option ℚ :=
  if 0 < w ∧ w ≤ i + 1 then some ((((closes.drop (i+1-w)).take w).sum) / w)
  else none

/-- Reference algorithm, step 2: `long` if `fast_avg > slow_avg`, `short`
if `fast_avg < slow_avg`, `flat` if equal. -/
def specSignal (f s : ℚ) : SignalKind :=
  if f > s then .longSig else if f < s then .shortSig else .flatSig

/-- Reference algorithm: the periods surviving windowing, each as its close
paired with its derived signal. -/
def specPeriods (closes : List ℚ) (fast slow : ℕ) : List (ℚ × SignalKind) :=
  (List.range closes.length).filterMap (fun i =>
    match specAvg closes fast i, specAvg closes slow i with
    | some f, some s => some (closes.getD i 0, specSignal f s)
    | _, _ => none)

/-- Reference algorithm, step 3: the fold over the signal sequence.  On a
`long` signal while `flat`, open at `close * (1 + fee)`; on a `short`
signal while `long`, close at `close * (1 - fee)` and record
`(exit - entry) / entry`; otherwise no action.  The entry price exists only
while a position is open. -/
def specStep (st : PositionState × Option ℚ × List ℚ) (p : ℚ × SignalKind) :
    PositionState × Option ℚ × List ℚ :=
  match st, p with
  | (.flat, _, tr), (c, .longSig) => (.long, some (c * (1 + TRADING_FEE)), tr)
  | (.long, some e, tr), (c, .shortSig) =>
      (.flat, none, tr ++ [(c * (1 - TRADING_FEE) - e) / e])
  | st, _ => st

/-- The reference algorithm of spec §4.4, assembled: compute both average
sequences, drop periods lacking either, derive the signal sequence, fold it
from `flat`, and aggregate; the neutral record when no period survives or
no trade is realized. -/
def spec_backtest (closes : List ℚ) (fast slow : ℕ) : BacktestResult :=
  let periods := specPeriods closes fast slow
  if periods = [] then neutralResult
  else
    let trades := (periods.foldl specStep (.flat, none, [])).2.2
    if trades = [] then neutralResult
    else
      { total_return := (trades.map (fun t => 1 + t)).prod - 1,
        num_trades := trades.length,
        win_rate := ((trades.countP (fun t => 0 < t) : ℚ) / (trades.length : ℚ)) }

/-- The integer encoding `run_backtest` uses for a signal: `1` for long,
`-1` for short, `0` for flat. -/
def toIntSignal : SignalKind → Int
  | .longSig => 1
  | .shortSig => -1
  | .flatSig => 0

/-- Simulation relation between the `(position, entry_price, trades)` state
of `run_backtest` (position an integer, entry price kept after a close) and
the reference fold state (position an enum, entry price only while long). -/
def TradeRel (st : Int × ℚ × List ℚ) (st' : PositionState × Option ℚ × List ℚ) : Prop :=
  st.2.2 = st'.2.2 ∧
    ((st.1 = 0 ∧ st'.1 = .flat) ∨ (st.1 = 1 ∧ st'.1 = .long ∧ st'.2.1 = some st.2.1))

/-- A one-coin environment used to instantiate the worker-loop theorems:
the data container holds a single one-close series for `"BTC"` and every
upload succeeds. -/
def sampleEnv : WorkerEnv :=
  { data := fun c => if c = "BTC" then some [100] else none,
    persistOk := fun _ => true }

/-- An empty results container. -/
def emptyStore : BlobStore := fun _ => none

/-- A concrete job used to instantiate the queue theorems. -/
def sampleJob : Job := { coin := "BTC", fast_ma := 1, slow_ma := 2 }

/-- A concrete stored artifact used to instantiate the store theorems. -/
def sampleResult : StoredResult :=
  { coin := "BTC", fast_ma := 1, slow_ma := 2, res := neutralResult }

/-- A worker about to receive one well-formed message. -/
def sampleState : WorkerState :=
  { visible := [some sampleJob],
    abandoned := [], store := emptyStore, processed := 0,
    terminated := false, polls := 0 }

/-- A worker whose queue is exhausted. -/
def drainedState : WorkerState :=
  { visible := [], abandoned := [], store := emptyStore, processed := 3,
    terminated := false, polls := 7 }

/-- A worker that has already observed an empty poll. -/
def doneState : WorkerState :=
  { visible := [], abandoned := [], store := emptyStore, processed := 3,
    terminated := true, polls := 8 }

/-- Zipping a list with two columns generated from its index range fuses
into one map over the index range. -/
lemma zip_map_range (l : List ℚ) (F G : ℕ → Option ℚ) :
    l.zip (((List.range l.length).map F).zip ((List.range l.length).map G)) =
      (List.range l.length).map (fun i => (l.getD i 0, F i, G i)) := by
  apply List.ext_getElem
  · simp
  · intro i h1 h2
    have hl : i < l.length := by simpa using h2
    simp [List.getElem_zip, List.getElem?_eq_getElem hl]

/-- The surviving dataframe of `run_backtest`, fused into one `filterMap`
over the row indices. -/
lemma backtestDf_eq_filterMap (closes : List ℚ) (f s : ℕ) :
    backtestDf closes f s =
      (List.range closes.length).filterMap (fun i =>
        match rmCell closes f i, rmCell closes s i with
        | some a, some b => some (closes.getD i 0, a, b)
        | _, _ => none) := by
  unfold backtestDf dropna rolling_mean
  rw [zip_map_range, List.filterMap_map]
  apply List.filterMap_congr
  intro i _
  cases hf : rmCell closes f i <;> cases hs : rmCell closes s i <;>
    simp [Function.comp, hf, hs]

/-- The signal rows of `run_backtest`, fused into one `filterMap` over the
row indices. -/
lemma signalRows_eq_filterMap (closes : List ℚ) (f s : ℕ) :
    signalRows closes f s =
      (List.range closes.length).filterMap (fun i =>
        match rmCell closes f i, rmCell closes s i with
        | some a, some b => some (closes.getD i 0, signalOf a b)
        | _, _ => none) := by
  unfold signalRows
  rw [backtestDf_eq_filterMap, List.map_filterMap]
  apply List.filterMap_congr
  intro i _
  cases hf : rmCell closes f i <;> cases hs : rmCell closes s i <;>
    simp [hf, hs]

/-- The spec's trailing average agrees with the pandas rolling-mean cell. -/
lemma specAvg_eq_rmCell (closes : List ℚ) (w i : ℕ) :
    specAvg closes w i = rmCell closes w i := by
  unfold specAvg rmCell
  split
  · next h =>
    have hsum : ((closes.drop (i+1-w)).take w).sum
        = ((closes.take (i+1)).drop (i+1-w)).sum := by
      rw [List.drop_take]
      congr 2
      omega
    rw [hsum]
  · rfl

/-- The integer signal of `run_backtest` encodes the reference signal. -/
lemma signalOf_eq_toInt (a b : ℚ) : signalOf a b = toIntSignal (specSignal a b) := by
  unfold signalOf specSignal
  split_ifs <;> rfl

/-- The signal rows of `run_backtest` are the reference periods with their
signals encoded as integers. -/
lemma signalRows_eq_spec (closes : List ℚ) (f s : ℕ) :
    signalRows closes f s =
      (specPeriods closes f s).map (fun p => (p.1, toIntSignal p.2)) := by
  rw [signalRows_eq_filterMap]
  unfold specPeriods
  rw [List.map_filterMap]
  apply List.filterMap_congr
  intro i _
  rw [specAvg_eq_rmCell, specAvg_eq_rmCell]
  cases hf : rmCell closes f i <;> cases hs : rmCell closes s i <;>
    simp [hf, hs, signalOf_eq_toInt]

/-- One step of `run_backtest`'s trade loop simulates one step of the
reference fold. -/
lemma tradeFold_specStep_rel (st : Int × ℚ × List ℚ)
    (st' : PositionState × Option ℚ × List ℚ) (c : ℚ) (sg : SignalKind)
    (h : TradeRel st st') :
    TradeRel (tradeFold st (c, toIntSignal sg)) (specStep st' (c, sg)) := by
  obtain ⟨p, e, tr⟩ := st
  obtain ⟨q, e', tr'⟩ := st'
  obtain ⟨htr, hpos⟩ := h
  simp only at htr
  subst htr
  cases sg <;>
    rcases hpos with ⟨h1, h2⟩ | ⟨h1, h2, h3⟩ <;>
      simp_all [tradeFold, specStep, toIntSignal, TradeRel]

/-- The trade loop of `run_backtest` simulates the reference fold from any
pair of related states. -/
lemma foldl_tradeFold_rel (l : List (ℚ × SignalKind)) :
    ∀ st st', TradeRel st st' →
      TradeRel ((l.map (fun p => (p.1, toIntSignal p.2))).foldl tradeFold st)
        (l.foldl specStep st') := by
  induction l with
  | nil => intro st st' h; simpa using h
  | cons hd tl ih =>
    intro st st' h
    obtain ⟨c, sg⟩ := hd
    simpa using ih _ _ (tradeFold_specStep_rel st st' c sg h)

/-- The realized trades of `run_backtest` equal those of the reference
fold. -/
lemma tradesOf_eq_spec (closes : List ℚ) (f s : ℕ) :
    tradesOf closes f s
      = ((specPeriods closes f s).foldl specStep (.flat, none, [])).2.2 := by
  have h := foldl_tradeFold_rel (specPeriods closes f s) (0, 0, [])
    (.flat, none, []) ⟨rfl, Or.inl ⟨rfl, rfl⟩⟩
  unfold tradesOf
  rw [signalRows_eq_spec]
  exact h.1

/-- The surviving dataframe and the reference period list have the same
length. -/
lemma backtestDf_length_eq_spec (closes : List ℚ) (f s : ℕ) :
    (backtestDf closes f s).length = (specPeriods closes f s).length := by
  have h1 : (signalRows closes f s).length = (backtestDf closes f s).length :=
    List.length_map ..
  have h2 : (signalRows closes f s).length = (specPeriods closes f s).length := by
    rw [signalRows_eq_spec]
    exact List.length_map ..
  omega

/-- `run_backtest` factors through its realized-trade list: the final
position and entry price are discarded. -/
lemma run_backtest_eq_resultOfTrades (closes : List ℚ) (f s : ℕ) :
    run_backtest closes f s = resultOfTrades (tradesOf closes f s) := by
  unfold run_backtest resultOfTrades
  by_cases hdf : (backtestDf closes f s).length = 0
  · have hrows : signalRows closes f s = [] := by
      unfold signalRows
      rw [List.length_eq_zero.mp hdf]
      rfl
    have htr : tradesOf closes f s = [] := by
      unfold tradesOf
      rw [hrows]
      rfl
    simp [hdf, htr]
  · simp [hdf]

/-- A series shorter than the slow window has no surviving row: its slow
rolling-mean cell is `NaN` on every row. -/
lemma backtestDf_eq_nil (closes : List ℚ) (f s : ℕ) (h : closes.length < s) :
    backtestDf closes f s = [] := by
  rw [backtestDf_eq_filterMap, List.filterMap_eq_nil_iff]
  intro i hi
  rw [List.mem_range] at hi
  have hs : rmCell closes s i = none := by
    unfold rmCell
    rw [if_neg]
    omega
  rw [hs]
  cases rmCell closes f i <;> rfl

/-- A series shorter than the slow window yields the neutral record. -/
lemma run_backtest_neutral_of_short (closes : List ℚ) (f s : ℕ)
    (h : closes.length < s) : run_backtest closes f s = neutralResult := by
  have hdf := backtestDf_eq_nil closes f s h
  have hrows : signalRows closes f s = [] := by
    unfold signalRows
    rw [hdf]
    rfl
  have htr : tradesOf closes f s = [] := by
    unfold tradesOf
    rw [hrows]
    rfl
  rw [run_backtest_eq_resultOfTrades, htr]
  rfl

/-- Zero realized trades yield the neutral record. -/
lemma run_backtest_neutral_of_no_trades (closes : List ℚ) (f s : ℕ)
    (h : tradesOf closes f s = []) : run_backtest closes f s = neutralResult := by
  rw [run_backtest_eq_resultOfTrades, h]
  rfl

/-- On the two-close series `[100, 110]` every admissible window pair yields
the neutral record: the first period never survives windowing, so no trade
can open and later close. -/
lemma run100110_neutral (fast slow : ℕ) (hf : 0 < fast) (hfs : fast < slow) :
    run_backtest [100, 110] fast slow = neutralResult := by
  rcases Nat.lt_or_ge slow 3 with h3 | h3
  · have hs2 : slow = 2 := by omega
    have hf1 : fast = 1 := by omega
    subst hs2
    subst hf1
    norm_num [run_backtest, backtestDf, dropna, rolling_mean, rmCell, signalRows,
      tradesOf, tradeFold, signalOf, neutralResult, List.range_succ, List.filterMap]
  · apply run_backtest_neutral_of_short
    have h2 : ([100, 110] : List ℚ).length = 2 := rfl
    omega

/-- Every close appearing in a surviving signal row is a close of the input
series. -/
lemma signalRows_close_mem (closes : List ℚ) (f s : ℕ) :
    ∀ r ∈ signalRows closes f s, r.1 ∈ closes := by
  rw [signalRows_eq_filterMap]
  intro r hr
  rw [List.mem_filterMap] at hr
  obtain ⟨i, hi, heq⟩ := hr
  rw [List.mem_range] at hi
  rcases hf : rmCell closes f i with _ | a <;> rcases hs : rmCell closes s i with _ | b <;>
    rw [hf, hs] at heq <;> simp at heq
  subst heq
  simp only [List.getElem?_eq_getElem hi, Option.getD_some]
  exact List.getElem_mem hi

/-- If every row close is positive then the trade loop keeps a positive
entry price while long and only records trades with `1 + pnl > 0`. -/
lemma tradeFold_trades_pos (rows : List (ℚ × Int)) :
    ∀ st : Int × ℚ × List ℚ,
      (∀ r ∈ rows, (0:ℚ) < r.1) →
      (st.1 = 1 → 0 < st.2.1) →
      (∀ t ∈ st.2.2, (0:ℚ) < 1 + t) →
      (∀ t ∈ (rows.foldl tradeFold st).2.2, (0:ℚ) < 1 + t) := by
  induction rows with
  | nil =>
    intro st _ _ h3
    simpa using h3
  | cons hd tl ih =>
    intro st hrows hpos htr
    have hhd : (0:ℚ) < hd.1 := hrows hd (List.mem_cons_self ..)
    simp only [List.foldl_cons]
    apply ih
    · intro r hr
      exact hrows r (List.mem_cons_of_mem _ hr)
    · unfold tradeFold
      split
      · intro _
        have hfee : (0:ℚ) < 1 + TRADING_FEE := by norm_num [TRADING_FEE]
        exact mul_pos hhd hfee
      · split
        · intro h
          norm_num at h
        · exact hpos
    · unfold tradeFold
      split
      · exact htr
      · split
        · next hcond =>
          intro t ht
          rw [List.mem_append] at ht
          rcases ht with ht | ht
          · exact htr t ht
          · rw [List.mem_singleton] at ht
            subst ht
            have he : 0 < st.2.1 := hpos hcond.2
            have hx : (0:ℚ) < hd.1 * (1 - TRADING_FEE) := by
              apply mul_pos hhd
              norm_num [TRADING_FEE]
            have hrw : 1 + (hd.1 * (1 - TRADING_FEE) - st.2.1) / st.2.1
                = hd.1 * (1 - TRADING_FEE) / st.2.1 := by
              field_simp
            rw [hrw]
            exact div_pos hx he
        · exact htr

/-- On a series of positive closes every realized trade return satisfies
`1 + pnl > 0`. -/
lemma tradesOf_pos (closes : List ℚ) (f s : ℕ) (hc : ∀ c ∈ closes, (0:ℚ) < c) :
    ∀ t ∈ tradesOf closes f s, (0:ℚ) < 1 + t := by
  unfold tradesOf
  apply tradeFold_trades_pos
  · intro r hr
    exact hc r.1 (signalRows_close_mem closes f s r hr)
  · intro h
    norm_num at h
  · intro t ht
    simp at ht

/-- C1: for every price series and window pair `0 < fast < slow`,
`run_backtest` computes the reference algorithm of the spec — drop periods
lacking either trailing average, signal long/short/flat by comparing the
averages, fold from a flat position opening longs at `close*(1+fee)` and
closing them at `close*(1-fee)` recording `(exit-entry)/entry`, never
shorting, and aggregate `total_return = prod(1+t) - 1`,
`win_rate = count(t>0)/num_trades`. -/
theorem C1_run_backtest_reference (closes : List ℚ) (fast slow : ℕ)
    (hf : 0 < fast) (hfs : fast < slow) :
    run_backtest closes fast slow = spec_backtest closes fast slow := by
  rw [run_backtest_eq_resultOfTrades, tradesOf_eq_spec]
  unfold spec_backtest resultOfTrades
  by_cases hper : specPeriods closes fast slow = []
  · simp [hper]
  · by_cases htr : ((specPeriods closes fast slow).foldl specStep
        (.flat, none, [])).2.2 = []
    · simp [hper, htr]
    · simp [hper, htr, List.length_eq_zero, List.countP_eq_length_filter]

/-- Witness for C1 at the series `[10, 130, 100, 110]` with windows
`fast = 1 < slow = 3`. -/
theorem C1_witness : 0 < 1 ∧ 1 < 3 ∧
    run_backtest [10, 130, 100, 110] 1 3 = spec_backtest [10, 130, 100, 110] 1 3 :=
  ⟨one_pos, by norm_num,
    C1_run_backtest_reference [10, 130, 100, 110] 1 3 one_pos (by norm_num)⟩

/-- C5: for `0 < fast < slow`, a price series shorter than `slow` periods
(no row survives windowing) or a fold realizing zero trades makes
`run_backtest` return exactly `{total_return: 0, num_trades: 0,
win_rate: 0}`. -/
theorem C5_neutral_boundary (closes : List ℚ) (fast slow : ℕ)
    (hf : 0 < fast) (hfs : fast < slow)
    (h : closes.length < slow ∨ tradesOf closes fast slow = []) :
    run_backtest closes fast slow = neutralResult := by
  rcases h with h | h
  · exact run_backtest_neutral_of_short closes fast slow h
  · exact run_backtest_neutral_of_no_trades closes fast slow h

/-- Witness for C5: the two-close series `[100, 110]` is shorter than a
slow window of 5 and yields the neutral record. -/
theorem C5_witness : 0 < 1 ∧ 1 < 5 ∧ ([100, 110] : List ℚ).length < 5 ∧
    run_backtest [100, 110] 1 5 = neutralResult :=
  ⟨one_pos, by norm_num, by norm_num,
    C5_neutral_boundary [100, 110] 1 5 one_pos (by norm_num) (Or.inl (by norm_num))⟩

/-- C6 (amended): for every window pair `0 < fast < slow` the record of
`run_backtest` has a non-negative integer `num_trades` and a `win_rate` in
`[0,1]` for every series, and `total_return > -1` provided every close of
the series is positive. -/
theorem C6_result_invariants (closes : List ℚ) (fast slow : ℕ)
    (hf : 0 < fast) (hfs : fast < slow) :
    (0:ℤ) ≤ ((run_backtest closes fast slow).num_trades : ℤ) ∧
    (0 ≤ (run_backtest closes fast slow).win_rate
      ∧ (run_backtest closes fast slow).win_rate ≤ 1) ∧
    ((∀ c ∈ closes, (0:ℚ) < c) → -1 < (run_backtest closes fast slow).total_return) := by
  refine ⟨Int.ofNat_nonneg _, ?_, ?_⟩
  · rw [run_backtest_eq_resultOfTrades]
    unfold resultOfTrades
    split
    · norm_num [neutralResult]
    · next h =>
      have hn : (0:ℚ) < ((tradesOf closes fast slow).length : ℚ) := by
        have := Nat.pos_of_ne_zero h
        exact_mod_cast this
      constructor
      · positivity
      · rw [div_le_one hn]
        exact_mod_cast List.length_filter_le _ _
  · intro hc
    rw [run_backtest_eq_resultOfTrades]
    unfold resultOfTrades
    split
    · norm_num [neutralResult]
    · next h =>
      have hpos : (0:ℚ) < ((tradesOf closes fast slow).map (fun t => 1 + t)).prod := by
        apply List.prod_pos
        intro x hx
        rw [List.mem_map] at hx
        obtain ⟨t, ht, rfl⟩ := hx
        exact tradesOf_pos closes fast slow hc t ht
      simp only
      linarith

/-- Counterexample for C6 as stated: on the series `[0, 10, -5]` (a close
may be non-positive) with windows `1 < 2`, a long opens at close `10` and
closes at close `-5`, so the single trade loses more than its cost basis
and `total_return < -1`. -/
theorem C6_counterexample : (run_backtest [0, 10, -5] 1 2).total_return < -1 := by
  norm_num [run_backtest, backtestDf, dropna, rolling_mean, rmCell, signalRows,
    tradesOf, tradeFold, signalOf, TRADING_FEE, List.range_succ, List.filterMap]

/-- Witness for C6 on the all-positive series `[10, 130, 100, 110]` with
windows `1 < 3`. -/
theorem C6_witness :
    (0 < 1 ∧ 1 < 3) ∧
    (0:ℤ) ≤ ((run_backtest [10, 130, 100, 110] 1 3).num_trades : ℤ) ∧
    (0 ≤ (run_backtest [10, 130, 100, 110] 1 3).win_rate
      ∧ (run_backtest [10, 130, 100, 110] 1 3).win_rate ≤ 1) ∧
    -1 < (run_backtest [10, 130, 100, 110] 1 3).total_return := by
  refine ⟨⟨one_pos, by norm_num⟩, ?_, ?_, ?_⟩
  · exact (C6_result_invariants [10, 130, 100, 110] 1 3 one_pos (by norm_num)).1
  · exact (C6_result_invariants [10, 130, 100, 110] 1 3 one_pos (by norm_num)).2.1
  · exact (C6_result_invariants [10, 130, 100, 110] 1 3 one_pos (by norm_num)).2.2
      (by norm_num [List.forall_mem_cons])

/-- Counterexample for C9 as stated: on the two-close series `[100, 110]`
no window pair `0 < fast < slow` can realize a trade — `slow ≥ 2` drops
the first period, so at most one period survives and `num_trades` is never
`1`. -/
theorem C9_counterexample : ¬ ∃ fast slow : ℕ, 0 < fast ∧ fast < slow ∧
    (run_backtest [100, 110] fast slow).num_trades = 1 := by
  rintro ⟨fast, slow, hf, hfs, h⟩
  rw [run100110_neutral fast slow hf hfs] at h
  simp [neutralResult] at h

/-- C9 (amended): on the series `[10, 130, 100, 110]` with windows
`fast = 1 < slow = 3` and fee `0.001`, the first surviving period opens a
long at close `100` and the second closes it at close `110`: entry
`100*(1+fee) = 100.1`, exit `110*(1-fee) = 109.89`, trade return
`(109.89 - 100.1)/100.1 = 89/910 ≈ 0.0978`, and `run_backtest` returns
`total_return = 89/910`, `num_trades = 1`, `win_rate = 1`. -/
theorem C9_concrete_trade :
    run_backtest [10, 130, 100, 110] 1 3 =
      { total_return := (110 * (1 - TRADING_FEE) - 100 * (1 + TRADING_FEE))
          / (100 * (1 + TRADING_FEE)),
        num_trades := 1,
        win_rate := 1 } ∧
    (110 * (1 - TRADING_FEE) - 100 * (1 + TRADING_FEE)) / (100 * (1 + TRADING_FEE))
      = (10989/100 - 1001/10) / (1001/10) ∧
    (10989/100 - 1001/10) / (1001/10 : ℚ) = 89/910 := by
  refine ⟨?_, by norm_num [TRADING_FEE], by norm_num⟩
  norm_num [run_backtest, backtestDf, dropna, rolling_mean, rmCell, signalRows,
    tradesOf, tradeFold, signalOf, TRADING_FEE, List.range_succ, List.filterMap]

/-- C10: `run_backtest`'s record is a function of the realized (closed)
trades alone — `num_trades` counts only closed trades, and two runs with
identical closed-trade lists yield identical records, so a long position
still open at series end contributes nothing. -/
theorem C10_open_position_discarded (closes : List ℚ) (fast slow : ℕ) :
    (run_backtest closes fast slow).num_trades = (tradesOf closes fast slow).length ∧
    ∀ closes₂ fast₂ slow₂,
      tradesOf closes fast slow = tradesOf closes₂ fast₂ slow₂ →
      run_backtest closes fast slow = run_backtest closes₂ fast₂ slow₂ := by
  constructor
  · rw [run_backtest_eq_resultOfTrades]
    unfold resultOfTrades
    split
    · next h =>
      rw [h]
      rfl
    · rfl
  · intro closes₂ fast₂ slow₂ h
    rw [run_backtest_eq_resultOfTrades, run_backtest_eq_resultOfTrades, h]

/-- Witness for C10: on `[100, 110]` with windows `1 < 2` a long opens on
the last period and is never closed; the record equals that of the empty
series, where no position ever existed. -/
theorem C10_witness :
    (run_backtest [100, 110] 1 2).num_trades = (tradesOf [100, 110] 1 2).length ∧
    run_backtest [100, 110] 1 2 = run_backtest [] 1 2 :=
  ⟨(C10_open_position_discarded [100, 110] 1 2).1,
   (C10_open_position_discarded [100, 110] 1 2).2 [] 1 2
     (by norm_num [tradesOf, signalRows, backtestDf, dropna, rolling_mean, rmCell,
       tradeFold, signalOf, List.range_succ, List.filterMap])⟩

/-- C2: for every coin list and window-range pair with no duplicates,
`generate_jobs` returns exactly
`|coins| * |{(f,s) in fast x slow : f < s}|` jobs, with no duplicates and
every job satisfying `fast_ma < slow_ma`; the function is pure, so the
order is deterministic and there are no side effects. -/
theorem C2_generate_jobs_grid (coins : List String) (fastRange slowRange : List ℕ)
    (hc : coins.Nodup) (hfr : fastRange.Nodup) (hsr : slowRange.Nodup) :
    (generate_jobs coins fastRange slowRange).length
        = coins.length *
          ((fastRange.flatMap (fun f => slowRange.map (fun s => (f, s)))).filter
            (fun p => p.1 < p.2)).length ∧
    (generate_jobs coins fastRange slowRange).Nodup ∧
    ∀ j ∈ generate_jobs coins fastRange slowRange, j.fast_ma < j.slow_ma := by
  refine ⟨?_, ?_, ?_⟩
  · unfold generate_jobs
    rw [List.length_flatMap]
    simp only [Function.comp_def, List.length_map]
    rw [List.map_const', List.sum_replicate, smul_eq_mul]
  · unfold generate_jobs
    rw [List.nodup_flatMap]
    constructor
    · intro coin _
      apply List.Nodup.map
      · intro p q hpq
        simp only [Job.mk.injEq] at hpq
        exact Prod.ext hpq.2.1 hpq.2.2
      · apply List.Nodup.filter
        exact List.Nodup.product hfr hsr
    · apply hc.imp
      intro a b hne j hja hjb
      rw [List.mem_map] at hja hjb
      obtain ⟨p, _, hp⟩ := hja
      obtain ⟨q, _, hq⟩ := hjb
      apply hne
      have ha : a = j.coin := congrArg Job.coin hp
      have hb : b = j.coin := congrArg Job.coin hq
      rw [ha, hb]
  · intro j hj
    unfold generate_jobs at hj
    rw [List.mem_flatMap] at hj
    obtain ⟨coin, _, hj⟩ := hj
    rw [List.mem_map] at hj
    obtain ⟨p, hp, rfl⟩ := hj
    rw [List.mem_filter] at hp
    exact of_decide_eq_true hp.2

/-- Witness for C2, the spec's own example: one coin, fast range `{5, 10}`,
slow range `{20}` gives exactly 2 jobs. -/
theorem C2_witness :
    ((generate_jobs ["BTC"] [5, 10] [20]).length
        = (["BTC"] : List String).length *
          ((([5, 10] : List ℕ).flatMap (fun f => ([20] : List ℕ).map (fun s => (f, s)))).filter
            (fun p => p.1 < p.2)).length ∧
    (generate_jobs ["BTC"] [5, 10] [20]).Nodup ∧
    ∀ j ∈ generate_jobs ["BTC"] [5, 10] [20], j.fast_ma < j.slow_ma) ∧
    (generate_jobs ["BTC"] [5, 10] [20]).length = 2 :=
  ⟨C2_generate_jobs_grid ["BTC"] [5, 10] [20] (by simp) (by simp) (by simp), by decide⟩

/-- The `try` block succeeds exactly when the payload decodes, the coin's
data loads (the backtest itself is total), and the result upload
succeeds. -/
lemma handleMessage_isSome_iff (env : WorkerEnv) (store : BlobStore) (msg : Option Job) :
    (handleMessage env store msg).isSome ↔
      ∃ job r, msg = some job ∧ process_job env job = some r ∧
        env.persistOk (blobName r.coin r.fast_ma r.slow_ma) = true := by
  cases msg with
  | none => simp [handleMessage]
  | some job =>
    cases hp : process_job env job with
    | none => simp [handleMessage, hp]
    | some r =>
      by_cases hper : env.persistOk (blobName r.coin r.fast_ma r.slow_ma) = true
      · simp [handleMessage, hp, hper]
      · simp [handleMessage, hp, hper]

/-- C3: in a worker iteration that receives a message, the message is
deleted (removed and not abandoned) iff decoding, processing and
persisting all succeed; on success the store is updated and the processed
count incremented; on any failure the message is left un-deleted
(abandoned, eligible for redelivery), the store is unchanged, and the loop
continues (the worker is not terminated). -/
theorem C3_delete_iff (env : WorkerEnv) (s : WorkerState) (msg : Option Job)
    (rest : List (Option Job)) (hterm : s.terminated = false)
    (hv : s.visible = msg :: rest) :
    (worker_step env s).terminated = false ∧
    (worker_step env s).visible = rest ∧
    ((handleMessage env s.store msg).isSome ↔
      (worker_step env s).abandoned = s.abandoned) ∧
    (∀ store', handleMessage env s.store msg = some store' →
      (worker_step env s).store = store' ∧
      (worker_step env s).processed = s.processed + 1 ∧
      (worker_step env s).abandoned = s.abandoned) ∧
    (handleMessage env s.store msg = none →
      (worker_step env s).abandoned = s.abandoned ++ [msg] ∧
      (worker_step env s).store = s.store ∧
      (worker_step env s).processed = s.processed) ∧
    ((handleMessage env s.store msg).isSome ↔
      ∃ job r, msg = some job ∧ process_job env job = some r ∧
        env.persistOk (blobName r.coin r.fast_ma r.slow_ma) = true) := by
  refine ⟨?_, ?_, ?_, ?_, ?_, handleMessage_isSome_iff env s.store msg⟩ <;>
    unfold worker_step <;> rw [hterm, hv] <;>
      cases hm : handleMessage env s.store msg <;> simp [hm]

/-- Witness for C3 on a live worker receiving one well-formed `"BTC"`
message. -/
theorem C3_witness :
    (worker_step sampleEnv sampleState).terminated = false ∧
    (worker_step sampleEnv sampleState).visible = [] ∧
    ((handleMessage sampleEnv sampleState.store (some sampleJob)).isSome ↔
      (worker_step sampleEnv sampleState).abandoned = sampleState.abandoned) ∧
    (∀ store', handleMessage sampleEnv sampleState.store (some sampleJob) = some store' →
      (worker_step sampleEnv sampleState).store = store' ∧
      (worker_step sampleEnv sampleState).processed = sampleState.processed + 1 ∧
      (worker_step sampleEnv sampleState).abandoned = sampleState.abandoned) ∧
    (handleMessage sampleEnv sampleState.store (some sampleJob) = none →
      (worker_step sampleEnv sampleState).abandoned
          = sampleState.abandoned ++ [some sampleJob] ∧
      (worker_step sampleEnv sampleState).store = sampleState.store ∧
      (worker_step sampleEnv sampleState).processed = sampleState.processed) ∧
    ((handleMessage sampleEnv sampleState.store (some sampleJob)).isSome ↔
      ∃ job r, (some sampleJob : Option Job) = some job ∧
        process_job sampleEnv job = some r ∧
        sampleEnv.persistOk (blobName r.coin r.fast_ma r.slow_ma) = true) :=
  C3_delete_iff sampleEnv sampleState (some sampleJob) [] rfl rfl

/-- C4: `save_result` is idempotent — saving the same artifact twice
leaves the store exactly as one save does — and writes to no blob name
other than the one derived from its `(coin, fast_ma, slow_ma)` key. -/
theorem C4_save_result_idempotent (store : BlobStore) (r : StoredResult) :
    save_result (save_result store r) r = save_result store r ∧
    ∀ name, name ≠ blobName r.coin r.fast_ma r.slow_ma →
      save_result store r name = store name := by
  constructor
  · funext name
    unfold save_result
    split <;> rfl
  · intro name hname
    unfold save_result
    rw [if_neg hname]

/-- Witness for C4 on an empty store, a concrete artifact and the foreign
blob name `"other"`. -/
theorem C4_witness :
    (save_result (save_result emptyStore sampleResult) sampleResult
        = save_result emptyStore sampleResult) ∧
    save_result emptyStore sampleResult "other" = emptyStore "other" :=
  ⟨(C4_save_result_idempotent emptyStore sampleResult).1,
   (C4_save_result_idempotent emptyStore sampleResult).2 "other" (by decide)⟩

/-- C7: an empty poll of a live worker — and nothing else — sets the
terminated flag; a terminated worker is a fixed point of the step function
(it never polls again, the poll counter is frozen); at every other
transition the worker stays live and loops back to polling. -/
theorem C7_sole_exit (env : WorkerEnv) (s : WorkerState) :
    (s.terminated = false → s.visible = [] →
      (worker_step env s).terminated = true ∧
      (worker_step env s).polls = s.polls + 1) ∧
    ((worker_step env s).terminated = true → s.terminated = true ∨ s.visible = []) ∧
    (s.terminated = true → ∀ n, (worker_step env)^[n] s = s) ∧
    (s.terminated = false → s.visible ≠ [] → (worker_step env s).terminated = false) := by
  refine ⟨?_, ?_, ?_, ?_⟩
  · intro h1 h2
    simp [worker_step, h1, h2]
  · intro h
    by_cases ht : s.terminated = true
    · exact Or.inl ht
    · right
      rw [Bool.not_eq_true] at ht
      cases hv : s.visible with
      | nil => rfl
      | cons m rest =>
        exfalso
        unfold worker_step at h
        rw [ht, hv] at h
        simp only [Bool.false_eq_true, if_false] at h
        cases hm : handleMessage env s.store m <;> rw [hm] at h <;> simp at h
  · intro ht n
    induction n with
    | zero => rfl
    | succ k ih =>
      rw [Function.iterate_succ_apply, show worker_step env s = s from by
        simp [worker_step, ht], ih]
  · intro h1 h2
    cases hv : s.visible with
    | nil => exact absurd hv h2
    | cons m rest =>
      unfold worker_step
      rw [h1, hv]
      cases hm : handleMessage env s.store m <;> simp [hm, h1]

/-- Witness for C7: a drained live worker terminates on its next poll, and
a terminated worker is unchanged by five further steps. -/
theorem C7_witness :
    ((worker_step sampleEnv drainedState).terminated = true ∧
      (worker_step sampleEnv drainedState).polls = drainedState.polls + 1) ∧
    (worker_step sampleEnv)^[5] doneState = doneState :=
  ⟨(C7_sole_exit sampleEnv drainedState).1 rfl rfl,
   (C7_sole_exit sampleEnv doneState).2.2.1 rfl 5⟩

/-- Counterexample for C8 as stated: with a send that fails exactly on
`fast_ma = 5`, pushing `[(BTC,5,20), (BTC,10,20)]` enqueues nothing — the
second job's send would have succeeded, yet the first failure prevented
it. -/
theorem C8_counterexample :
    (push_jobs_to_queue (fun j => decide (j.fast_ma ≠ 5))
      [{ coin := "BTC", fast_ma := 5, slow_ma := 20 },
       { coin := "BTC", fast_ma := 10, slow_ma := 20 }]).1 = [] ∧
    (fun (j : Job) => decide (j.fast_ma ≠ 5))
        { coin := "BTC", fast_ma := 10, slow_ma := 20 } = true :=
  ⟨rfl, rfl⟩

/-- C8 (amended): the publisher's enqueue loop catches nothing, so the
first failing send aborts the run — jobs before the failure are enqueued,
the failing job and every later job are not. -/
theorem C8_abort_on_failure (sendOk : Job → Bool) (pre : List Job) (j : Job)
    (post : List Job) (hpre : ∀ x ∈ pre, sendOk x = true) (hj : sendOk j = false) :
    push_jobs_to_queue sendOk (pre ++ j :: post) = (pre, false) := by
  induction pre with
  | nil => simp [push_jobs_to_queue, hj]
  | cons hd tl ih =>
    have hhd : sendOk hd = true := hpre hd (List.mem_cons_self ..)
    rw [List.cons_append]
    unfold push_jobs_to_queue
    rw [hhd, if_pos rfl, ih (fun x hx => hpre x (List.mem_cons_of_mem _ hx))]

/-- Witness for C8: a send failing only on `fast_ma = 10` leaves exactly
the job before it in the queue and drops the one after it. -/
theorem C8_witness :
    push_jobs_to_queue (fun j => decide (j.fast_ma ≠ 10))
      ([{ coin := "BTC", fast_ma := 5, slow_ma := 20 }] ++
        { coin := "BTC", fast_ma := 10, slow_ma := 20 } ::
        [{ coin := "BTC", fast_ma := 15, slow_ma := 20 }])
      = ([{ coin := "BTC", fast_ma := 5, slow_ma := 20 }], false) :=
  C8_abort_on_failure _ _ _ _ (by decide) (by decide)
